import Mathlib

/-!
Verification of the schema-to-validator translation layer, the tool
registration loop and the handler-wrapping dispatcher of
`enhanced-outlook-mcp` (`index.js`), against its natural-language
specification.

JavaScript values that flow through the translator and the dispatcher are
modelled by the inductive `Json`; the zod validator nodes built by
`jsonSchemaToZodShape` are modelled by `ZodBase` / `ZodType` together with
their documented acceptance semantics (`z.string()` accepts exactly strings,
`z.union` accepts a value accepted by some alternative, `z.any()` accepts
everything, `z.enum(vs)` accepts exactly the listed literals, `z.array(z.any())`
accepts exactly arrays, `z.object({})` accepts exactly objects).
-/

/-- JSON-like runtime values (the arguments and results that flow through the
    dispatcher).  Numbers are modelled as integers: every concrete number in
    the specification's examples is an integer. -/
inductive Json where
  | null : Json
  | bool (b : Bool) : Json
  | num (n : Int) : Json
  | str (s : String) : Json
  | arr (xs : List Json) : Json
  | obj (fields : List (String × Json)) : Json

/-- The `type` member of a FieldSpec: either a single type tag (a string such
    as `"string"` or `"array"`), or an array of tags (the multi-type case
    recognised by `Array.isArray(value.type)` in `jsonSchemaToZodShape`). -/
inductive FieldType where
  | single (tag : String) : FieldType
  | multi (tags : List String) : FieldType
deriving Repr, DecidableEq

/-- A FieldSpec, one entry of `parameterSchema.properties` in `index.js`:
    an optional `type`, an optional `enum` (a list of string literals) and an
    optional `description`. -/
structure FieldSpec where
  type : Option FieldType := none
  enum : Option (List String) := none
  description : Option String := none
deriving Repr, DecidableEq

/-- A `parameterSchema` as consumed by `jsonSchemaToZodShape`: `properties`
    is an insertion-ordered map from field name to FieldSpec (possibly
    absent), `required` is a list of field names (possibly absent). -/
structure ParameterSchema where
  properties : Option (List (String × FieldSpec)) := none
  required : Option (List String) := none
deriving Repr, DecidableEq

/-- The base zod validators built inside `jsonSchemaToZodShape`:
    `z.string()`, `z.number()`, `z.boolean()`, `z.array(z.any())`,
    `z.object({})` and `z.any()`. -/
inductive ZodBase where
  | zString : ZodBase
  | zNumber : ZodBase
  | zBoolean : ZodBase
  | zArrayAny : ZodBase
  | zObjectEmpty : ZodBase
  | zAny : ZodBase
deriving Repr, DecidableEq

/-- The zod validators a field's translation can produce: a base validator,
    `z.enum(vs)`, or `z.union` of base validators (the code only ever unions
    the base validators produced by its tag map). -/
inductive ZodType where
  | base (b : ZodBase) : ZodType
  | zEnum (vs : List String) : ZodType
  | zUnion (alts : List ZodBase) : ZodType
deriving Repr, DecidableEq

/-- Acceptance semantics of the base zod validators on JSON values:
    `z.string()` accepts exactly strings, `z.number()` exactly numbers,
    `z.boolean()` exactly booleans, `z.array(z.any())` exactly arrays
    (elements unconstrained), `z.object({})` exactly objects (an object with
    any members parses; zod rejects `null` for `z.object`), and `z.any()`
    accepts every value. -/
def ZodBase.accepts : ZodBase → Json → Bool
  | .zString, .str _ => true
  | .zString, _ => false
  | .zNumber, .num _ => true
  | .zNumber, _ => false
  | .zBoolean, .bool _ => true
  | .zBoolean, _ => false
  | .zArrayAny, .arr _ => true
  | .zArrayAny, _ => false
  | .zObjectEmpty, .obj _ => true
  | .zObjectEmpty, _ => false
  | .zAny, _ => true

/-- Acceptance semantics of a field validator: `z.enum(vs)` accepts exactly
    the listed string literals; `z.union(alts)` accepts a value accepted by
    at least one alternative. -/
def ZodType.accepts : ZodType → Json → Bool
  | .base b, v => b.accepts v
  | .zEnum vs, .str s => vs.contains s
  | .zEnum _, _ => false
  | .zUnion alts, v => alts.any (fun b => b.accepts v)

/-- One node of the derived validator shape: the zod type, whether
    `.optional()` was applied, and the `.describe(...)` text. -/
structure ZodNode where
  type : ZodType
  optional : Bool
  description : String
deriving Repr, DecidableEq

/-- The tag map applied to each element of a multi-type list in
    `jsonSchemaToZodShape` (`value.type.map(t => ...)`): the five known tags
    map to their base validators, anything else to `z.any()`. -/
def tagToZod (t : String) : ZodBase :=
  if t = "string" then .zString
  else if t = "number" then .zNumber
  else if t = "boolean" then .zBoolean
  else if t = "array" then .zArrayAny
  else if t = "object" then .zObjectEmpty
  else .zAny

/-- The per-field translation of `jsonSchemaToZodShape` (`index.js` lines
    38-78), producing the `zodType` for one FieldSpec:
    * a multi-type list is mapped through `tagToZod`, then joined with
      `z.union` when it has exactly 2 or exactly 3 elements, and otherwise
      falls back to `z.any()`;
    * a single `"string"` with an `enum` present becomes `z.enum`, without
      one `z.string()`;
    * `"number"`, `"boolean"`, `"array"`, `"object"` become their base
      validators;
    * any other (or missing) `type` becomes `z.any()`. -/
def fieldZodType (value : FieldSpec) : ZodType :=
  match value.type with
  | some (.multi tags) =>
    let types := tags.map tagToZod
    if types.length = 2 then .zUnion types
    else if types.length = 3 then .zUnion types
    else .base .zAny
  | some (.single t) =>
    if t = "string" then
      match value.enum with
      | some vs => .zEnum vs
      | none => .base .zString
    else if t = "number" then .base .zNumber
    else if t = "boolean" then .base .zBoolean
    else if t = "array" then .base .zArrayAny
    else if t = "object" then .base .zObjectEmpty
    else .base .zAny
  | none => .base .zAny

/-- Whether `jsonSchema.required && jsonSchema.required.includes(key)` holds. -/
def requiredContains (required : Option (List String)) (key : String) : Bool :=
  match required with
  | some req => req.contains key
  | none => false

/-- `jsonSchemaToZodShape` (`index.js` lines 31-89): absent schema or absent
    `properties` yields the empty shape; otherwise each declared property
    becomes one node, `.optional()` applied unless the key is in `required`,
    and `.describe(value.description || '')` attached. -/
def jsonSchemaToZodShape (jsonSchema : Option ParameterSchema) : List (String × ZodNode) :=
  match jsonSchema with
  | none => []
  | some s =>
    match s.properties with
    | none => []
    | some props =>
      props.map (fun kv =>
        (kv.1,
          { type := fieldZodType kv.2
            optional := !requiredContains s.required kv.1
            description := (kv.2.description).getD "" }))

/-- Validation of a call's argument object against a derived shape, as
    `z.object(shape).safeParse(args)` decides it: every node's key, when
    present in the arguments, must be accepted by the node's type; when
    absent, the node must be optional.  Unknown argument keys never cause
    rejection (zod objects strip them). -/
def shapeAccepts (shape : List (String × ZodNode)) (args : List (String × Json)) : Bool :=
  shape.all (fun kn =>
    match args.lookup kn.1 with
    | some v => kn.2.type.accepts v
    | none => kn.2.optional)

/-- The spec-level notion of a JSON value matching a primitive type tag. -/
def tagMatches (t : String) (v : Json) : Bool :=
  match v with
  | .str _ => t = "string"
  | .num _ => t = "number"
  | .bool _ => t = "boolean"
  | .arr _ => t = "array"
  | .obj _ => t = "object"
  | .null => false

/-- The five primitive type tags of the schema dialect. -/
def primitiveTags : List String := ["string", "number", "boolean", "array", "object"]

/-- Hexadecimal digit (lower case), as used by JSON string escapes. -/
def hexDigit (n : Nat) : Char :=
  if n < 10 then Char.ofNat (48 + n) else Char.ofNat (87 + n)

/-- `JSON.stringify`'s escaping of a single character inside a string
    literal: quote and backslash are backslash-escaped, the common control
    characters use their short escapes, other control characters use
    `\u00XX`, and everything else is copied verbatim. -/
def escapeChar (c : Char) : String :=
  if c = '"' then "\\\""
  else if c = '\\' then "\\\\"
  else if c = '\x08' then "\\b"
  else if c = '\x09' then "\\t"
  else if c = '\x0a' then "\\n"
  else if c = '\x0c' then "\\f"
  else if c = '\x0d' then "\\r"
  else if c.toNat < 32 then
    "\\u00" ++ String.mk [hexDigit (c.toNat / 16), hexDigit (c.toNat % 16)]
  else String.singleton c

/-- A JSON string literal as `JSON.stringify` prints it. -/
def jsQuote (s : String) : String :=
  "\"" ++ String.join (s.toList.map escapeChar) ++ "\""

/-- `JSON.stringify(v, null, 2)` relative to the current indentation `ind`
    (the top-level call uses `ind = ""`): arrays and objects print one
    element per line, indented two further spaces, with the closing bracket
    back at the parent indentation. -/
def jsonStringify (v : Json) (ind : String) : String :=
  match v with
  | .null => "null"
  | .bool true => "true"
  | .bool false => "false"
  | .num n => toString n
  | .str s => jsQuote s
  | .arr [] => "[]"
  | .arr (x :: xs) =>
    let inner := ind ++ "  "
    let items := (x :: xs).attach.map (fun y => inner ++ jsonStringify y.1 inner)
    "[\n" ++ String.intercalate ",\n" items ++ "\n" ++ ind ++ "]"
  | .obj [] => "\x7b\x7d"
  | .obj (kv :: kvs) =>
    let inner := ind ++ "  "
    let items := (kv :: kvs).attach.map
      (fun p => inner ++ jsQuote p.1.1 ++ ": " ++ jsonStringify p.1.2 inner)
    "\x7b\n" ++ String.intercalate ",\n" items ++ "\n" ++ ind ++ "\x7d"
termination_by sizeOf v
decreasing_by
  · have h := List.sizeOf_lt_of_mem y.2
    simp only [Json.arr.sizeOf_spec]
    omega
  · have h := List.sizeOf_lt_of_mem p.2
    have h2 : sizeOf p.1.2 < sizeOf p.1 := by
      obtain ⟨⟨a, b⟩, hp⟩ := p
      simp
    simp only [Json.obj.sizeOf_spec]
    omega

/-- The observable effect of one `logger.info` / `logger.error` call made by
    `wrappedHandler`: the info entry carries the tool name and the serialized
    arguments, the error entry carries the tool name and the error message. -/
inductive LogEntry where
  | info (toolName : String) (args : List (String × Json)) : LogEntry
  | error (toolName : String) (message : String) : LogEntry

/-- `args || {}` in `wrappedHandler`: absent (`undefined`/`null`) arguments
    default to the empty mapping, a supplied object passes through. -/
def effectiveArgs : Option (List (String × Json)) → List (String × Json)
  | some m => m
  | none => []

/-- The MCP content envelope built by `wrappedHandler` on success:
    `{content: [{type: "text", text: JSON.stringify(result, null, 2)}]}`. -/
def contentEnvelope (result : Json) : Json :=
  .obj [("content",
    .arr [.obj [("type", .str "text"), ("text", .str (jsonStringify result ""))]])]

/-- The outcome of one wrapped invocation: the argument mapping the original
    handler was invoked with, the value returned to (or error re-raised to)
    the transport, and the log entries produced. -/
structure Invocation where
  handlerArgs : List (String × Json)
  outcome : Except String Json
  log : List LogEntry

/-- `wrappedHandler` (`index.js` lines 96-114): log the call, invoke the
    original handler with `args || {}`; on success wrap the result in the
    content envelope; on failure log the error with the tool name and
    re-raise the same error.  A handler is modelled as a function from the
    argument mapping to `Except`, whose `error` carries the thrown message. -/
def wrappedHandler (toolName : String)
    (handler : List (String × Json) → Except String Json)
    (args : Option (List (String × Json))) : Invocation :=
  let a := effectiveArgs args
  match handler a with
  | .ok result =>
    { handlerArgs := a
      outcome := .ok (contentEnvelope result)
      log := [.info toolName a] }
  | .error e =>
    { handlerArgs := a
      outcome := .error e
      log := [.info toolName a, .error toolName e] }

/-- A tool descriptor as assembled into `TOOLS` (`index.js` lines 16-22). -/
structure ToolDescriptor where
  name : String
  description : String := ""
  parameters : Option ParameterSchema := none
  handler : List (String × Json) → Except String Json := fun _ => .ok .null

/-- Modelled from the spec: the registration step performed by the MCP SDK's
    `server.tool(name, ...)` (the `McpServer` class is a dependency, not part
    of this repository's sources).  Per the spec's construction-time
    invariant, tool names are unique and a duplicate name is a startup
    configuration failure surfaced immediately: registering a name that is
    already registered fails. -/
def registerTool (registered : List String) (name : String) :
    Except String (List String) :=
  if registered.contains name then
    .error ("Tool " ++ name ++ " is already registered")
  else
    .ok (registered ++ [name])

/-- The startup registration loop (`index.js` lines 92-118): each tool of the
    registry is registered in order; the first failure aborts startup. -/
def registerLoop (registered : List String) :
    List ToolDescriptor → Except String (List String)
  | [] => .ok registered
  | t :: ts =>
    match registerTool registered t.name with
    | .error e => .error e
    | .ok r => registerLoop r ts

/-- Registration of the whole registry, starting from an empty server. -/
def startupRegistration (tools : List ToolDescriptor) :
    Except String (List String) :=
  registerLoop [] tools

/-- The tools that became invokable: none at all when startup failed. -/
def invokableTools : Except String (List String) → List String
  | .ok reg => reg
  | .error _ => []

/-- Unfolding of `jsonStringify` on a non-empty array, with the `attach`
    bookkeeping removed. -/
theorem jsonStringify_arr_cons (x : Json) (xs : List Json) (ind : String) :
    jsonStringify (.arr (x :: xs)) ind =
      "[\n" ++ String.intercalate ",\n"
        ((x :: xs).map (fun y => (ind ++ "  ") ++ jsonStringify y (ind ++ "  "))) ++
      "\n" ++ ind ++ "]" := by
  rw [jsonStringify]
  rw [List.attach_map_val (x :: xs)
    (fun y => (ind ++ "  ") ++ jsonStringify y (ind ++ "  "))]

/-- Unfolding of `jsonStringify` on a non-empty object, with the `attach`
    bookkeeping removed. -/
theorem jsonStringify_obj_cons (kv : String × Json) (kvs : List (String × Json)) (ind : String) :
    jsonStringify (.obj (kv :: kvs)) ind =
      "\x7b\n" ++ String.intercalate ",\n"
        ((kv :: kvs).map
          (fun p => (ind ++ "  ") ++ jsQuote p.1 ++ ": " ++ jsonStringify p.2 (ind ++ "  "))) ++
      "\n" ++ ind ++ "\x7d" := by
  rw [jsonStringify]
  rw [List.attach_map_val (kv :: kvs)
    (fun p => (ind ++ "  ") ++ jsQuote p.1 ++ ": " ++ jsonStringify p.2 (ind ++ "  "))]

/-- For the five primitive tags, the base validator produced by the tag map
    accepts exactly the values matching the tag. -/
theorem tagToZod_accepts_eq (t : String) (ht : t ∈ primitiveTags) (v : Json) :
    (tagToZod t).accepts v = tagMatches t v := by
  simp only [primitiveTags, List.mem_cons, List.not_mem_nil, or_false] at ht
  rcases ht with rfl | rfl | rfl | rfl | rfl <;> cases v <;> rfl

/-- A union over the tag map of a list of primitive tags accepts exactly the
    values matching some listed tag. -/
theorem mapped_tags_any_accepts (tags : List String)
    (ht : ∀ t ∈ tags, t ∈ primitiveTags) (v : Json) :
    ((tags.map tagToZod).any (fun b => b.accepts v)) =
      tags.any (fun t => tagMatches t v) := by
  induction tags with
  | nil => rfl
  | cons t tl ih =>
    simp only [List.map_cons, List.any_cons]
    rw [tagToZod_accepts_eq t (ht t (by simp)), ih (fun x hx => ht x (by simp [hx]))]

/-- Looking a key up in a key-preserving mapped association list. -/
theorem lookup_map_keyed {β γ : Type} (l : List (String × β)) (g : String → β → γ)
    (k : String) :
    (l.map (fun kv => (kv.1, g kv.1 kv.2))).lookup k = (l.lookup k).map (g k) := by
  induction l with
  | nil => rfl
  | cons kv tl ih =>
    obtain ⟨a, b⟩ := kv
    by_cases h : k = a
    · subst h
      simp [List.lookup]
    · have hb : (k == a) = false := beq_eq_false_iff_ne.mpr h
      simp [List.lookup, hb, ih]

/-- A successful association-list lookup names a member of the list. -/
theorem mem_of_lookup_some {β : Type} (l : List (String × β)) (k : String) (b : β)
    (h : l.lookup k = some b) : (k, b) ∈ l := by
  induction l with
  | nil => simp [List.lookup] at h
  | cons kv tl ih =>
    obtain ⟨a, c⟩ := kv
    by_cases hk : k = a
    · subst hk
      simp [List.lookup] at h
      simp [h]
    · have hb : (k == a) = false := beq_eq_false_iff_ne.mpr hk
      simp only [List.lookup, hb] at h
      exact List.mem_cons_of_mem _ (ih h)

/-- Removing the entries of one key from an argument object leaves the lookup
    of every other key unchanged. -/
theorem lookup_filter_ne (args : List (String × Json)) (k k2 : String) (h : k2 ≠ k) :
    (args.filter (fun p => !(p.1 == k))).lookup k2 = args.lookup k2 := by
  induction args with
  | nil => rfl
  | cons kv tl ih =>
    obtain ⟨a, b⟩ := kv
    rw [List.filter_cons]
    by_cases ha : a = k
    · subst ha
      have hk2 : (k2 == a) = false := beq_eq_false_iff_ne.mpr h
      simp only [beq_self_eq_true, Bool.not_true, Bool.false_eq_true, if_false]
      rw [ih]
      simp [List.lookup, hk2]
    · have haf : (a == k) = false := beq_eq_false_iff_ne.mpr ha
      simp only [haf, Bool.not_false, if_true]
      by_cases h2 : k2 = a
      · subst h2
        simp [List.lookup]
      · have hk2 : (k2 == a) = false := beq_eq_false_iff_ne.mpr h2
        simp [List.lookup, hk2, ih]

/-- A registration loop that ran to completion saw pairwise distinct tool
    names, all of them absent from the initially registered names. -/
theorem registerLoop_ok_names (ts : List ToolDescriptor) :
    ∀ (reg r : List String), registerLoop reg ts = .ok r →
      (ts.map (fun t => t.name)).Nodup ∧
        ∀ n ∈ ts.map (fun t => t.name), n ∉ reg := by
  induction ts with
  | nil =>
    intro reg r _
    simp
  | cons t tl ih =>
    intro reg r h
    simp only [registerLoop, registerTool] at h
    by_cases hnotmem : t.name ∈ reg
    · simp [hnotmem] at h
    · rw [if_neg (by simp [hnotmem])] at h
      obtain ⟨hnodup, hfresh⟩ := ih (reg ++ [t.name]) r h
      refine ⟨?_, ?_⟩
      · simp only [List.map_cons, List.nodup_cons]
        refine ⟨?_, hnodup⟩
        intro hmem
        exact hfresh t.name hmem (by simp)
      · intro n hn
        simp only [List.map_cons, List.mem_cons] at hn
        rcases hn with rfl | hn
        · exact hnotmem
        · intro hmemreg
          exact hfresh n hn (by simp [hmemreg])

/-- C1: the claim says that for every FieldSpec whose `type` is a list of
primitive tags, of any length, the derived validator rejects every value
whose type is outside the declared union and never degrades to an
unconstrained accept-anything validator.  The code violates this (and the
repository's own analysis document, which recommends a uniform n-ary
`z.union` over the mapped tags): for the 4-element list
`['string','number','boolean','array']`, `jsonSchemaToZodShape` falls back
to `z.any()`, which accepts `null` although `null` matches none of the four
declared types. -/
theorem C1_multi_type_four_falls_back_to_any :
    fieldZodType { type := some (.multi ["string", "number", "boolean", "array"]) }
        = .base .zAny ∧
    (fieldZodType
        { type := some (.multi ["string", "number", "boolean", "array"]) }).accepts .null
        = true ∧
    (["string", "number", "boolean", "array"].all (fun t => !(tagMatches t .null))) = true :=
  ⟨rfl, rfl, rfl⟩

/-- C2: for a FieldSpec whose `type` is a 2-element or 3-element list of
primitive tags, the derived validator accepts exactly the values matching at
least one listed tag; and for the schema
`{properties:{to:{type:['string','array']}}, required:['to']}` the value
`"a@example.com"` is accepted, `["a@example.com","b@example.com"]` is
accepted, `42` is rejected, and a call omitting `to` is rejected. -/
theorem C2_union_of_two_or_three_tags (tags : List String) (e : Option (List String))
    (d : Option String) (v : Json)
    (hlen : tags.length = 2 ∨ tags.length = 3)
    (hprim : ∀ t ∈ tags, t ∈ primitiveTags) :
    (fieldZodType { type := some (.multi tags), enum := e, description := d }).accepts v
        = tags.any (fun t => tagMatches t v) ∧
    (shapeAccepts (jsonSchemaToZodShape (some
        { properties := some [("to", { type := some (.multi ["string", "array"]) })]
          required := some ["to"] })) [("to", .str "a@example.com")] = true ∧
     shapeAccepts (jsonSchemaToZodShape (some
        { properties := some [("to", { type := some (.multi ["string", "array"]) })]
          required := some ["to"] }))
        [("to", .arr [.str "a@example.com", .str "b@example.com"])] = true ∧
     shapeAccepts (jsonSchemaToZodShape (some
        { properties := some [("to", { type := some (.multi ["string", "array"]) })]
          required := some ["to"] })) [("to", .num 42)] = false ∧
     shapeAccepts (jsonSchemaToZodShape (some
        { properties := some [("to", { type := some (.multi ["string", "array"]) })]
          required := some ["to"] })) [] = false) := by
  refine ⟨?_, rfl, rfl, rfl, rfl⟩
  have hzu : fieldZodType { type := some (.multi tags), enum := e, description := d }
      = .zUnion (tags.map tagToZod) := by
    rcases hlen with h2 | h3
    · simp [fieldZodType, List.length_map, h2]
    · simp [fieldZodType, List.length_map, h3]
  rw [hzu]
  exact mapped_tags_any_accepts tags hprim v

/-- Witness for C2 at the specification's own example: the two-tag list
`['string','array']` and the rejected value `42`. -/
theorem C2_union_of_two_or_three_tags_witness :
    ((["string", "array"] : List String).length = 2 ∨
      (["string", "array"] : List String).length = 3) ∧
    ((fieldZodType { type := some (.multi ["string", "array"]) }).accepts (.num 42)
        = ["string", "array"].any (fun t => tagMatches t (.num 42)) ∧
     (shapeAccepts (jsonSchemaToZodShape (some
        { properties := some [("to", { type := some (.multi ["string", "array"]) })]
          required := some ["to"] })) [("to", .str "a@example.com")] = true ∧
      shapeAccepts (jsonSchemaToZodShape (some
        { properties := some [("to", { type := some (.multi ["string", "array"]) })]
          required := some ["to"] }))
        [("to", .arr [.str "a@example.com", .str "b@example.com"])] = true ∧
      shapeAccepts (jsonSchemaToZodShape (some
        { properties := some [("to", { type := some (.multi ["string", "array"]) })]
          required := some ["to"] })) [("to", .num 42)] = false ∧
      shapeAccepts (jsonSchemaToZodShape (some
        { properties := some [("to", { type := some (.multi ["string", "array"]) })]
          required := some ["to"] })) [] = false)) :=
  ⟨Or.inl rfl,
    C2_union_of_two_or_three_tags ["string", "array"] none none (.num 42)
      (Or.inl rfl) (by decide)⟩

/-- C3 as stated is false on the code: in the schema with empty `properties`
and `required: ['to']`, the required name `to` produces no validator node at
all, and a call omitting `to` passes validation instead of being rejected. -/
theorem C3_counterexample_required_name_not_declared :
    jsonSchemaToZodShape
        (some { properties := some [], required := some ["to"] }) = [] ∧
    shapeAccepts (jsonSchemaToZodShape
        (some { properties := some [], required := some ["to"] })) [] = true :=
  ⟨rfl, rfl⟩

/-- C3 (amended): for every parameterSchema, every field name listed in
`required` and declared in `properties` produces a required validator node —
a call omitting it is rejected — every declared field not listed in
`required` produces an optional node, and each node carries the field's
description text, or the empty string when the description is absent. -/
theorem C3_required_and_optional_nodes (props : List (String × FieldSpec))
    (req : Option (List String)) (k : String) (fs : FieldSpec)
    (hk : props.lookup k = some fs) :
    ∃ n : ZodNode,
      (jsonSchemaToZodShape
          (some { properties := some props, required := req })).lookup k = some n ∧
      n.optional = !requiredContains req k ∧
      n.description = fs.description.getD "" ∧
      (requiredContains req k = true →
        ∀ args : List (String × Json), args.lookup k = none →
          shapeAccepts (jsonSchemaToZodShape
            (some { properties := some props, required := req })) args = false) := by
  have hshape : jsonSchemaToZodShape (some { properties := some props, required := req })
      = props.map (fun kv => (kv.1,
          ({ type := fieldZodType kv.2
             optional := !requiredContains req kv.1
             description := kv.2.description.getD "" } : ZodNode))) := rfl
  have hlk : (jsonSchemaToZodShape
      (some { properties := some props, required := req })).lookup k
      = some { type := fieldZodType fs
               optional := !requiredContains req k
               description := fs.description.getD "" } := by
    rw [hshape,
      lookup_map_keyed props (fun a b =>
        ({ type := fieldZodType b
           optional := !requiredContains req a
           description := b.description.getD "" } : ZodNode)) k,
      hk]
    rfl
  refine ⟨_, hlk, rfl, rfl, ?_⟩
  intro hreq args hargs
  have hmem := mem_of_lookup_some _ _ _ hlk
  apply Bool.eq_false_iff.mpr
  intro hall
  have hnode := List.all_eq_true.mp hall _ hmem
  simp only at hnode
  rw [hargs] at hnode
  rw [hreq] at hnode
  simp at hnode

/-- Witness for the amended C3 at the specification's example: `subject`
required, `body` optional. -/
theorem C3_required_and_optional_nodes_witness :
    ([("subject", ({ type := some (.single "string"),
                     description := some "Email subject" } : FieldSpec)),
      ("body", ({ type := some (.single "string") } : FieldSpec))].lookup "subject"
        = some { type := some (.single "string"), description := some "Email subject" } ∧
     ∃ n : ZodNode,
      (jsonSchemaToZodShape (some
          { properties := some
              [("subject", { type := some (.single "string"),
                             description := some "Email subject" }),
               ("body", { type := some (.single "string") })]
            required := some ["subject"] })).lookup "subject" = some n ∧
      n.optional = !requiredContains (some ["subject"]) "subject" ∧
      n.description = (some "Email subject").getD "" ∧
      (requiredContains (some ["subject"]) "subject" = true →
        ∀ args : List (String × Json), args.lookup "subject" = none →
          shapeAccepts (jsonSchemaToZodShape (some
            { properties := some
                [("subject", { type := some (.single "string"),
                               description := some "Email subject" }),
                 ("body", { type := some (.single "string") })]
              required := some ["subject"] })) args = false)) ∧
    (∃ n : ZodNode,
      (jsonSchemaToZodShape (some
          { properties := some
              [("subject", { type := some (.single "string"),
                             description := some "Email subject" }),
               ("body", { type := some (.single "string") })]
            required := some ["subject"] })).lookup "body" = some n ∧
      n.optional = !requiredContains (some ["subject"]) "body" ∧
      n.description = (none : Option String).getD "" ∧
      (requiredContains (some ["subject"]) "body" = true →
        ∀ args : List (String × Json), args.lookup "body" = none →
          shapeAccepts (jsonSchemaToZodShape (some
            { properties := some
                [("subject", { type := some (.single "string"),
                               description := some "Email subject" }),
                 ("body", { type := some (.single "string") })]
              required := some ["subject"] })) args = false)) :=
  ⟨⟨rfl, C3_required_and_optional_nodes _ (some ["subject"]) "subject"
      { type := some (.single "string"), description := some "Email subject" } rfl⟩,
   C3_required_and_optional_nodes _ (some ["subject"]) "body"
      { type := some (.single "string") } rfl⟩

/-- C4: the schema translator is total — modelled as a total function, it
never throws for any input — an absent schema or absent `properties` yields
the empty shape, the translator produces exactly one node per declared
property, and a field with an unknown or missing `type` yields a validator
that accepts any value. -/
theorem C4_total_translator_and_unconstrained_defaults :
    jsonSchemaToZodShape none = [] ∧
    (∀ req : Option (List String),
      jsonSchemaToZodShape (some { properties := none, required := req }) = []) ∧
    (∀ (props : List (String × FieldSpec)) (req : Option (List String)),
      (jsonSchemaToZodShape (some { properties := some props, required := req })).map
        Prod.fst = props.map Prod.fst) ∧
    (∀ fs : FieldSpec, fs.type = none →
      ∀ v : Json, (fieldZodType fs).accepts v = true) ∧
    (∀ (t : String) (fs : FieldSpec), fs.type = some (.single t) → t ∉ primitiveTags →
      ∀ v : Json, (fieldZodType fs).accepts v = true) := by
  refine ⟨rfl, fun _ => rfl, ?_, ?_, ?_⟩
  · intro props req
    induction props with
    | nil => rfl
    | cons kv tl ih =>
      simp only [jsonSchemaToZodShape, List.map_cons] at ih ⊢
      rw [ih]
  · intro fs h v
    simp [fieldZodType, h, ZodType.accepts, ZodBase.accepts]
  · intro t fs h hnp v
    simp only [primitiveTags, List.mem_cons, List.not_mem_nil, or_false] at hnp
    push_neg at hnp
    obtain ⟨h1, h2, h3, h4, h5⟩ := hnp
    simp [fieldZodType, h, h1, h2, h3, h4, h5, ZodType.accepts, ZodBase.accepts]

/-- Witness for C4: a field with no `type` accepts a boolean, a field with
the unknown type tag `date` accepts `null`. -/
theorem C4_total_translator_and_unconstrained_defaults_witness :
    (({} : FieldSpec).type = none ∧
      (fieldZodType {}).accepts (.bool true) = true) ∧
    (({ type := some (.single "date") } : FieldSpec).type = some (.single "date") ∧
      "date" ∉ primitiveTags ∧
      (fieldZodType { type := some (.single "date") }).accepts .null = true) :=
  ⟨⟨rfl, C4_total_translator_and_unconstrained_defaults.2.2.2.1 {} rfl (.bool true)⟩,
   ⟨rfl, by decide,
    C4_total_translator_and_unconstrained_defaults.2.2.2.2 "date"
      { type := some (.single "date") } rfl (by decide) .null⟩⟩

/-- C5: if the tool list contains two descriptors with the same name, the
startup registration loop fails — modelled from the spec's construction-time
uniqueness invariant for the SDK-side `server.tool` — and no tool becomes
invokable. -/
theorem C5_duplicate_tool_name_fails_startup (tools : List ToolDescriptor)
    (hdup : ¬ (tools.map (fun t => t.name)).Nodup) :
    (∃ e : String, startupRegistration tools = .error e) ∧
    invokableTools (startupRegistration tools) = [] := by
  cases h : startupRegistration tools with
  | ok reg => exact absurd (registerLoop_ok_names tools [] reg h).1 hdup
  | error e => exact ⟨⟨e, rfl⟩, rfl⟩

/-- Witness for C5: a registry with two tools both named `list_emails`. -/
theorem C5_duplicate_tool_name_fails_startup_witness :
    ¬ (([{ name := "list_emails" }, { name := "list_emails" }] :
        List ToolDescriptor).map (fun t => t.name)).Nodup ∧
    ((∃ e : String, startupRegistration
        [{ name := "list_emails" }, { name := "list_emails" }] = .error e) ∧
      invokableTools (startupRegistration
        [{ name := "list_emails" }, { name := "list_emails" }]) = []) :=
  ⟨by simp, C5_duplicate_tool_name_fails_startup
      [{ name := "list_emails" }, { name := "list_emails" }] (by simp)⟩

/-- C6: for every handler return value, the wrapped invocation produces
exactly the single-element content envelope
`{content: [{type: "text", text: t}]}` where `t` is the pretty-printed JSON
serialization of the handler's result with 2-space indentation. -/
theorem C6_success_content_envelope (toolName : String)
    (handler : List (String × Json) → Except String Json)
    (args : Option (List (String × Json))) (r : Json)
    (h : handler (effectiveArgs args) = .ok r) :
    (wrappedHandler toolName handler args).outcome =
      .ok (.obj [("content",
        .arr [.obj [("type", .str "text"),
                    ("text", .str (jsonStringify r ""))]])]) := by
  simp only [wrappedHandler, h, contentEnvelope]

/-- Witness for C6: a handler returning `{status:'success', count:2}` yields
the envelope whose text is the 2-space-indented JSON of that object. -/
theorem C6_success_content_envelope_witness :
    ((fun _ : List (String × Json) =>
        (.ok (.obj [("status", .str "success"), ("count", .num 2)]) : Except String Json))
        (effectiveArgs (some [])) =
      .ok (.obj [("status", .str "success"), ("count", .num 2)])) ∧
    (wrappedHandler "send_email"
        (fun _ => .ok (.obj [("status", .str "success"), ("count", .num 2)]))
        (some [])).outcome =
      .ok (.obj [("content",
        .arr [.obj [("type", .str "text"),
          ("text", .str "\x7b\n  \"status\": \"success\",\n  \"count\": 2\n\x7d")]])]) := by
  refine ⟨rfl, ?_⟩
  have hs : jsonStringify (.obj [("status", .str "success"), ("count", .num 2)]) ""
      = "\x7b\n  \"status\": \"success\",\n  \"count\": 2\n\x7d" := by
    rw [jsonStringify_obj_cons]
    simp [jsonStringify, jsQuote, escapeChar, String.intercalate]
    rfl
  rw [C6_success_content_envelope "send_email"
      (fun _ => .ok (.obj [("status", .str "success"), ("count", .num 2)]))
      (some []) (.obj [("status", .str "success"), ("count", .num 2)]) rfl, hs]

/-- C7: every error thrown by a handler is logged together with the tool
name and re-raised unchanged to the transport — never swallowed and never
converted into a success envelope. -/
theorem C7_error_logged_and_rethrown (toolName : String)
    (handler : List (String × Json) → Except String Json)
    (args : Option (List (String × Json))) (e : String)
    (h : handler (effectiveArgs args) = .error e) :
    (wrappedHandler toolName handler args).outcome = .error e ∧
    LogEntry.error toolName e ∈ (wrappedHandler toolName handler args).log := by
  constructor
  · simp only [wrappedHandler, h]
  · simp only [wrappedHandler, h]
    exact List.mem_cons_of_mem _ (List.mem_cons_self _ _)

/-- Witness for C7: a handler throwing `Error("boom")` makes the wrapped
invocation reject with that same message, and an error log entry with the
tool name is produced. -/
theorem C7_error_logged_and_rethrown_witness :
    ((fun _ : List (String × Json) => (.error "boom" : Except String Json))
        (effectiveArgs none) = .error "boom") ∧
    ((wrappedHandler "list_events" (fun _ => .error "boom") none).outcome
        = .error "boom" ∧
      LogEntry.error "list_events" "boom" ∈
        (wrappedHandler "list_events" (fun _ => .error "boom") none).log) :=
  ⟨rfl, C7_error_logged_and_rethrown "list_events"
      (fun _ => .error "boom") none "boom" rfl⟩

/-- The derived shape declares exactly the keys of `properties`, in order. -/
theorem shape_keys_eq (props : List (String × FieldSpec)) (req : Option (List String)) :
    (jsonSchemaToZodShape (some { properties := some props, required := req })).map
      Prod.fst = props.map Prod.fst := by
  induction props with
  | nil => rfl
  | cons kv tl ih =>
    simp only [jsonSchemaToZodShape, List.map_cons] at ih ⊢
    rw [ih]

/-- Validation against a shape that declares no node for key `k` is
    unchanged when every argument entry keyed `k` is removed. -/
theorem shapeAccepts_filter_irrelevant (shape : List (String × ZodNode)) (k : String)
    (hk : k ∉ shape.map Prod.fst) (args : List (String × Json)) :
    shapeAccepts shape (args.filter (fun p => !(p.1 == k))) = shapeAccepts shape args := by
  revert hk
  induction shape with
  | nil => intro _; rfl
  | cons kn tl ih =>
    intro hk
    simp only [List.map_cons, List.mem_cons] at hk
    push_neg at hk
    obtain ⟨hk1, hk2⟩ := hk
    show ((match (args.filter (fun p => !(p.1 == k))).lookup kn.1 with
            | some v => kn.2.type.accepts v
            | none => kn.2.optional) &&
          shapeAccepts tl (args.filter (fun p => !(p.1 == k)))) =
         ((match args.lookup kn.1 with
            | some v => kn.2.type.accepts v
            | none => kn.2.optional) &&
          shapeAccepts tl args)
    rw [lookup_filter_ne args k kn.1 (fun he => hk1 he.symm), ih hk2]

/-- C8: a field of type `string` with a non-empty `enum` accepts exactly the
listed string literals and rejects every other value; an `enum` on a
FieldSpec whose `type` is not the single tag `string` — including multi-type
lists containing `'string'` — is ignored: the derived validator equals the
one obtained with the enum removed. -/
theorem C8_enum_exact_and_ignored_off_string (vs : List String) (d : Option String)
    (s : String) (fs : FieldSpec)
    (hvs : vs ≠ [])
    (hfs : fs.type ≠ some (.single "string")) :
    ((fieldZodType
        { type := some (.single "string"), enum := some vs, description := d }).accepts
        (.str s) = vs.contains s ∧
     (∀ v : Json, (∀ s2 : String, v ≠ .str s2) →
       (fieldZodType
          { type := some (.single "string"), enum := some vs, description := d }).accepts
          v = false)) ∧
    fieldZodType fs
      = fieldZodType { type := fs.type, enum := none, description := fs.description } := by
  refine ⟨⟨rfl, ?_⟩, ?_⟩
  · intro v hv
    cases v with
    | str s2 => exact absurd rfl (hv s2)
    | null => rfl
    | bool b => rfl
    | num n => rfl
    | arr xs => rfl
    | obj fields => rfl
  · obtain ⟨ft, fe, fd⟩ := fs
    simp only at hfs ⊢
    cases ft with
    | none => rfl
    | some t =>
      cases t with
      | multi tags => rfl
      | single tg =>
        have htg : ¬ tg = "string" := by
          intro he
          exact hfs (by rw [he])
        simp [fieldZodType, htg]

/-- Witness for C8: enum `['low','high']` rejects the unlisted string
`'urgent'` and the non-string `1`; an enum on the multi-type field
`['string','array']` has no effect. -/
theorem C8_enum_exact_and_ignored_off_string_witness :
    (["low", "high"] : List String) ≠ [] ∧
    (({ type := some (.multi ["string", "array"]), enum := some ["x"] } : FieldSpec).type
        ≠ some (.single "string")) ∧
    (fieldZodType { type := some (.single "string"), enum := some ["low", "high"] }).accepts
        (.str "urgent") = ["low", "high"].contains "urgent" ∧
    (fieldZodType { type := some (.single "string"), enum := some ["low", "high"] }).accepts
        (.num 1) = false ∧
    fieldZodType { type := some (.multi ["string", "array"]), enum := some ["x"] }
      = fieldZodType { type := some (.multi ["string", "array"]) } :=
  ⟨by decide, by decide,
   (C8_enum_exact_and_ignored_off_string ["low", "high"] none "urgent"
      { type := some (.multi ["string", "array"]), enum := some ["x"] }
      (by decide) (by decide)).1.1,
   (C8_enum_exact_and_ignored_off_string ["low", "high"] none "urgent"
      { type := some (.multi ["string", "array"]), enum := some ["x"] }
      (by decide) (by decide)).1.2 (.num 1) (fun s2 h => Json.noConfusion h),
   (C8_enum_exact_and_ignored_off_string ["low", "high"] none "urgent"
      { type := some (.multi ["string", "array"]), enum := some ["x"] }
      (by decide) (by decide)).2⟩

/-- C9: a field declared with type `object` — alone or as a union
alternative — gets a validator accepting any mapping, with no nested shape
validation; the wrapped invocation passes a supplied argument mapping to the
original handler unchanged, so the field's supplied mapping value is
preserved in what the handler receives, and it passes the empty mapping when
no arguments are supplied. -/
theorem C9_object_type_and_argument_passthrough (fs : FieldSpec) (tags : List String)
    (e : Option (List String)) (d : Option String) (m : List (String × Json))
    (toolName : String) (handler : List (String × Json) → Except String Json)
    (args : List (String × Json))
    (hobj : fs.type = some (.single "object"))
    (htags : "object" ∈ tags) :
    (fieldZodType fs).accepts (.obj m) = true ∧
    (fieldZodType { type := some (.multi tags), enum := e, description := d }).accepts
        (.obj m) = true ∧
    (wrappedHandler toolName handler (some args)).handlerArgs = args ∧
    (wrappedHandler toolName handler none).handlerArgs = [] := by
  refine ⟨?_, ?_, ?_, ?_⟩
  · obtain ⟨ft, fe, fd⟩ := fs
    simp only at hobj
    subst hobj
    rfl
  · have hmem : ZodBase.zObjectEmpty ∈ tags.map tagToZod := by
      have h := List.mem_map_of_mem tagToZod htags
      rwa [show tagToZod "object" = .zObjectEmpty from rfl] at h
    have hany : (tags.map tagToZod).any (fun b => b.accepts (.obj m)) = true :=
      List.any_eq_true.mpr ⟨_, hmem, rfl⟩
    by_cases hlen : tags.length = 2 ∨ tags.length = 3
    · have hzu : fieldZodType { type := some (.multi tags), enum := e, description := d }
          = .zUnion (tags.map tagToZod) := by
        rcases hlen with h2 | h3
        · simp [fieldZodType, List.length_map, h2]
        · simp [fieldZodType, List.length_map, h3]
      rw [hzu]
      exact hany
    · push_neg at hlen
      have hza : fieldZodType { type := some (.multi tags), enum := e, description := d }
          = .base .zAny := by
        simp [fieldZodType, List.length_map, hlen.1, hlen.2]
      rw [hza]
      rfl
  · simp only [wrappedHandler]
    cases handler (effectiveArgs (some args)) <;> rfl
  · simp only [wrappedHandler]
    cases handler (effectiveArgs none) <;> rfl

/-- Witness for C9: an `object` field and the union `['string','object']`
both accept the mapping `{room: "B"}`; a call with a supplied mapping hands
exactly that mapping to the handler, a call without arguments hands it the
empty mapping. -/
theorem C9_object_type_and_argument_passthrough_witness :
    ({ type := some (.single "object") } : FieldSpec).type = some (.single "object") ∧
    "object" ∈ ["string", "object"] ∧
    ((fieldZodType { type := some (.single "object") }).accepts
        (.obj [("room", .str "B")]) = true ∧
     (fieldZodType { type := some (.multi ["string", "object"]) }).accepts
        (.obj [("room", .str "B")]) = true ∧
     (wrappedHandler "create_event" (fun _ => .ok .null)
        (some [("location", .obj [("room", .str "B")])])).handlerArgs
        = [("location", .obj [("room", .str "B")])] ∧
     (wrappedHandler "create_event" (fun _ => .ok .null) none).handlerArgs = []) :=
  ⟨rfl, by decide,
   C9_object_type_and_argument_passthrough { type := some (.single "object") }
      ["string", "object"] none none [("room", .str "B")] "create_event"
      (fun _ => .ok .null) [("location", .obj [("room", .str "B")])]
      rfl (by decide)⟩

/-- C10: a field name that appears in `required` but is absent from
`properties` produces no validator node at all in the derived shape — the
(total) construction silently ignores it — and validation never depends on
that name: removing every argument entry with that key leaves the validation
outcome unchanged, so a call omitting that field can pass validation. -/
theorem C10_required_name_without_property_ignored
    (props : List (String × FieldSpec)) (req : List String) (k : String)
    (hreq : k ∈ req) (hnot : k ∉ props.map Prod.fst) :
    (k ∉ (jsonSchemaToZodShape
        (some { properties := some props, required := some req })).map Prod.fst) ∧
    (∀ args : List (String × Json),
      shapeAccepts (jsonSchemaToZodShape
          (some { properties := some props, required := some req }))
        (args.filter (fun p => !(p.1 == k))) =
      shapeAccepts (jsonSchemaToZodShape
          (some { properties := some props, required := some req })) args) := by
  have hkeys := shape_keys_eq props (some req)
  have hnotshape : k ∉ (jsonSchemaToZodShape
      (some { properties := some props, required := some req })).map Prod.fst := by
    rw [hkeys]
    exact hnot
  exact ⟨hnotshape, fun args => shapeAccepts_filter_irrelevant _ k hnotshape args⟩

/-- Witness for C10: `required: ['subject','ghost']` with `ghost` undeclared:
the shape has no `ghost` node and the call `{subject: "hi"}`, omitting
`ghost`, passes validation. -/
theorem C10_required_name_without_property_ignored_witness :
    "ghost" ∈ ["subject", "ghost"] ∧
    "ghost" ∉ ([("subject", ({ type := some (.single "string") } : FieldSpec))].map
        Prod.fst) ∧
    (("ghost" ∉ (jsonSchemaToZodShape
        (some { properties := some [("subject", { type := some (.single "string") })]
                required := some ["subject", "ghost"] })).map Prod.fst) ∧
     (∀ args : List (String × Json),
      shapeAccepts (jsonSchemaToZodShape
          (some { properties := some [("subject", { type := some (.single "string") })]
                  required := some ["subject", "ghost"] }))
        (args.filter (fun p => !(p.1 == "ghost"))) =
      shapeAccepts (jsonSchemaToZodShape
          (some { properties := some [("subject", { type := some (.single "string") })]
                  required := some ["subject", "ghost"] })) args)) ∧
    shapeAccepts (jsonSchemaToZodShape
        (some { properties := some [("subject", { type := some (.single "string") })]
                required := some ["subject", "ghost"] }))
      [("subject", .str "hi")] = true :=
  ⟨by decide, by decide,
   C10_required_name_without_property_ignored
      [("subject", { type := some (.single "string") })] ["subject", "ghost"] "ghost"
      (by decide) (by decide),
   rfl⟩
